import Mathlib

/-!
# Verification of the Lead Discovery Prioritization Engine

A shallow embedding of the discovery/prioritization subsystem of the
lead-generation platform (`backend/icp_manager.py` and
`backend/query_manager.py`), together with proofs and refutations of the
specification's claims about it.

Python strings are modelled as `List Char`; `str.lower`, `str.strip`,
`str.rstrip`, `str.replace` and substring containment (`in`) are given
executable definitions that mirror CPython's behaviour on the ASCII
inputs the engine handles.  Python floats carried by the fit scorer are
modelled as integers (every weight, threshold and score the program
manipulates is a whole number, and the scorer only adds and clamps, so
integer arithmetic is exact here).  Wall-clock instants are modelled
as integers (hours for the response cache, seconds for the query
rotation history), and `datetime` comparisons become integer
comparisons.
-/

namespace LeadEngine

/-- Python strings, modelled as lists of characters. -/
abbrev Str := List Char

/-- Coerce a Lean string literal into the model's string type. -/
def str (s : String) : Str := s.data

/-! ## Python string primitives -/

/-- Characters removed by Python's default `str.strip()` (ASCII whitespace). -/
def isWsChar (c : Char) : Bool :=
  c == ' ' || c == '\t' || c == '\n' || c == '\r' || c == '\x0b' || c == '\x0c'

/-- Remove leading characters satisfying `p` (left half of `str.strip`). -/
def lstripP (p : Char → Bool) : Str → Str
  | [] => []
  | c :: rest => if p c then lstripP p rest else c :: rest

/-- Remove trailing characters satisfying `p` (`str.rstrip`). -/
def rstripP (p : Char → Bool) : Str → Str
  | [] => []
  | c :: rest =>
    let r := rstripP p rest
    if r = [] ∧ p c then [] else c :: r

/-- Python `str.strip()` with no arguments: trim whitespace on both ends. -/
def stripWs (s : Str) : Str := lstripP isWsChar (rstripP isWsChar s)

/-- Python `str.lower()` (the engine only lowercases ASCII text). -/
def lowerStr (s : Str) : Str := s.map Char.toLower

/-- Is `pat` a prefix of `s`?  (Helper for `replace` and `in`.) -/
def isPrefixC : Str → Str → Bool
  | [], _ => true
  | _ :: _, [] => false
  | a :: as, b :: bs => a == b && isPrefixC as bs

/-- Worker for `removeAll`: scan the string left to right; `skip` is the
number of characters still to delete from a previously matched
occurrence of the pattern. -/
def removeAllAux (pat : Str) (skip : Nat) : Str → Str
  | [] => []
  | c :: rest =>
    match skip with
    | k + 1 => removeAllAux pat k rest
    | 0 =>
      if pat ≠ [] ∧ isPrefixC pat (c :: rest) = true then
        removeAllAux pat (pat.length - 1) rest
      else
        c :: removeAllAux pat 0 rest

/-- Python `s.replace(pat, "")` for a non-empty `pat`: delete every
left-to-right, non-overlapping occurrence of `pat` in `s`. -/
def removeAll (pat : Str) (s : Str) : Str := removeAllAux pat 0 s

/-- Python `pat in s`: substring containment. -/
def containsSub (pat : Str) : Str → Bool
  | [] => isPrefixC pat []
  | c :: rest => isPrefixC pat (c :: rest) || containsSub pat rest

/-! ## Association lists (Python `dict`, insertion-ordered) -/

/-- Python `d.get(k, default)`. -/
def lookupD {β : Type} (l : List (Str × β)) (k : Str) (d : β) : β :=
  match l with
  | [] => d
  | (k', v) :: rest => if k' = k then v else lookupD rest k d

/-- Python `d.get(k)` returning an option. -/
def lookupA {β : Type} (l : List (Str × β)) (k : Str) : Option β :=
  match l with
  | [] => none
  | (k', v) :: rest => if k' = k then some v else lookupA rest k

/-- Python `d[k] = v`: replace in place if the key exists, else append. -/
def updateA {β : Type} (l : List (Str × β)) (k : Str) (v : β) : List (Str × β) :=
  match l with
  | [] => [(k, v)]
  | (k', v') :: rest => if k' = k then (k, v) :: rest else (k', v') :: updateA rest k v

/-! ## The Normalizer (`SmartLeadDiscoveryManager._normalize_*`) -/

/-- The suffix list walked by `_normalize_company_name`, in program order. -/
def companySuffixes : List Str :=
  [str "inc", str "llc", str "ltd", str "corp", str "corporation",
   str "company", str "co", str "inc.", str "llc.", str "ltd."]

/-- Method `_normalize_company_name`: lowercase, trim, then for each suffix `x`
delete every occurrence of `" x"` and then of `".x"`, and trim again. -/
def normalizeCompanyName (name : Str) : Str :=
  let n := stripWs (lowerStr name)
  let n := companySuffixes.foldl
    (fun acc sfx => removeAll ('.' :: sfx) (removeAll (' ' :: sfx) acc)) n
  stripWs n

/-- Method `_normalize_website`: lowercase, trim, strip trailing slashes, then
delete every occurrence of `https://`, then `http://`, then `www.`. -/
def normalizeWebsite (website : Str) : Str :=
  let w := rstripP (fun c => c == '/') (stripWs (lowerStr website))
  removeAll (str "www.") (removeAll (str "http://") (removeAll (str "https://") w))

/-- Method `_normalize_phone`: keep only digits; if at least 10 remain, keep the
last 10 (`digits[-10:]`), else keep them all. -/
def normalizePhone (phone : Str) : Str :=
  let digits := phone.filter Char.isDigit
  if 10 ≤ digits.length then digits.drop (digits.length - 10) else digits

/-- The key under which `DiscoveryStateManager` records companies in its
`seen_companies` / `filtered_companies` sets: `company_name.lower().strip()`. -/
def ledgerKey (name : Str) : Str := stripWs (lowerStr name)

/-! ## Discovery ledger (`DiscoveryStateManager`)

The persisted dictionary's claim-relevant fields: the `seen_companies`
and `filtered_companies` sets (membership-based, insertion keeps the
collection duplicate-free as a Python `set` does) and the
`daily_stats` date-keyed map.  `last_discovery` and `sources_checked`
are not consulted by any claim and are omitted. -/

/-- One day's entry in `daily_stats`. -/
structure DayStats where
  leadsAdded : Nat
  apiCalls : Nat
deriving DecidableEq, Repr

structure LedgerState where
  seen : List Str
  filtered : List Str
  dailyStats : List (Str × DayStats)
deriving DecidableEq, Repr

/-- The fresh state built by `DiscoveryStateManager._load_state` when the
backing file is absent. -/
def freshLedger : LedgerState := ⟨[], [], []⟩

/-- Method `mark_company_seen`. -/
def markCompanySeen (st : LedgerState) (name : Str) : LedgerState :=
  { st with seen := st.seen.insert (ledgerKey name) }

/-- Method `mark_company_filtered`. -/
def markCompanyFiltered (st : LedgerState) (name : Str) : LedgerState :=
  { st with filtered := st.filtered.insert (ledgerKey name) }

/-- Method `is_company_seen`. -/
abbrev isCompanySeen (st : LedgerState) (name : Str) : Prop :=
  ledgerKey name ∈ st.seen

/-- Method `is_company_filtered`. -/
abbrev isCompanyFiltered (st : LedgerState) (name : Str) : Prop :=
  ledgerKey name ∈ st.filtered

/-- Method `get_daily_stats(date)`: the day's entry, defaulting to zeros. -/
def getDailyStats (st : LedgerState) (date : Str) : DayStats :=
  lookupD st.dailyStats date ⟨0, 0⟩

/-- Method `increment_daily_leads(count)`: create today's entry if absent, then
add `count` to its `leads_added`. -/
def incrementDailyLeads (st : LedgerState) (today : Str) (count : Nat) : LedgerState :=
  let cur := getDailyStats st today
  { st with dailyStats := updateA st.dailyStats today ⟨cur.leadsAdded + count, cur.apiCalls⟩ }

/-! ## Response cache (`APIResponseCache`)

Instants are integers measured in hours, so `timedelta(hours=h)` is the
integer `h`.  `_generate_key` hashes the service name together with a
canonical serialization of the parameters; the hash is modelled as the
injective pair (service, serialized params). -/

abbrev CacheKey := Str × Str

structure CacheEntry (α : Type) where
  data : α
  cachedAt : Int
  expiresAt : Int
deriving DecidableEq, Repr

structure APIResponseCache (α : Type) where
  cache : List (CacheKey × CacheEntry α)
  /-- Field `default_ttl` (hours); the constructor default is 24. -/
  defaultTtl : Int
deriving DecidableEq, Repr

def entriesLookup {α : Type} (l : List (CacheKey × CacheEntry α)) (k : CacheKey) :
    Option (CacheEntry α) :=
  match l with
  | [] => none
  | (k', v) :: rest => if k' = k then some v else entriesLookup rest k

def cacheLookup {α : Type} (c : APIResponseCache α) (k : CacheKey) : Option (CacheEntry α) :=
  entriesLookup c.cache k

/-- Python `del self.cache[key]`. -/
def cacheErase {α : Type} (c : APIResponseCache α) (k : CacheKey) : APIResponseCache α :=
  { c with cache := c.cache.filter (fun e => e.1 ≠ k) }

/-- Method `APIResponseCache.get` at instant `now`: absent key gives `None`; a
present entry is evicted and treated absent when `now > expires_at`,
otherwise its payload is returned.  The result pairs the returned value
with the (possibly mutated) cache. -/
def cacheGet {α : Type} (c : APIResponseCache α) (service params : Str) (now : Int) :
    Option α × APIResponseCache α :=
  let key : CacheKey := (service, params)
  match cacheLookup c key with
  | none => (none, c)
  | some entry =>
    if now > entry.expiresAt then (none, cacheErase c key)
    else (some entry.data, c)

/-- Method `APIResponseCache.set` at instant `now`: Python computes
`ttl = timedelta(hours=ttl_hours) if ttl_hours else self.default_ttl`,
so both `None` and the falsy `0` select the default TTL. -/
def cacheSet {α : Type} (c : APIResponseCache α) (service params : Str) (d : α)
    (ttlHours : Option Int) (now : Int) : APIResponseCache α :=
  let ttl : Int :=
    match ttlHours with
    | some h => if h = 0 then c.defaultTtl else h
    | none => c.defaultTtl
  let key : CacheKey := (service, params)
  { c with cache := (key, ⟨d, now, now + ttl⟩) :: c.cache.filter (fun e => e.1 ≠ key) }

/-! ## Fit profile (`ICPCriteria`) and scorer (`calculate_icp_score`)

The weight dictionaries are insertion-ordered association lists because
the scorer iterates them and stops at the first matching entry. -/

structure ICPCriteria where
  preferredIndustries : List (Str × ℤ)
  preferredLocations : List (Str × ℤ)
  preferredCompanySizes : List (Str × ℤ)
  keyPainPoints : List Str
  techIndicators : List Str
  minScoreThreshold : ℤ
deriving DecidableEq, Repr

/-- The defaults installed by `ICPCriteria.__post_init__`. -/
def defaultICP : ICPCriteria where
  preferredIndustries :=
    [(str "tourism", 25), (str "hospitality", 25), (str "healthcare", 20),
     (str "retail", 15), (str "finance", 20), (str "real_estate", 15),
     (str "professional_services", 15), (str "education", 12),
     (str "government", 10), (str "construction", 10), (str "agriculture", 8)]
  preferredLocations :=
    [(str "honolulu", 15), (str "oahu", 15), (str "maui", 12),
     (str "kauai", 12), (str "big_island", 12), (str "hawaii", 10)]
  preferredCompanySizes :=
    [(str "10-50", 20), (str "51-100", 25), (str "101-250", 25),
     (str "251-500", 20), (str "501-1000", 10), (str "1000+", 5), (str "1-10", 5)]
  keyPainPoints :=
    [str "manual processes", str "data analysis", str "customer experience",
     str "automation", str "efficiency", str "digital transformation",
     str "competitive advantage", str "operational costs", str "scaling challenges",
     str "customer insights", str "personalization", str "predictive analytics"]
  techIndicators :=
    [str "website", str "online booking", str "mobile app", str "ecommerce",
     str "crm", str "digital marketing", str "social media", str "cloud",
     str "api", str "integration"]
  minScoreThreshold := 70

/-- A candidate record.  Python reads fields with `.get(field, "")`
(resp. `0` for the employee count); an absent field and an empty string
behave identically, so fields are plain strings with `[]` meaning
absent/falsy.  `icpScore` is the `lead["icp_score"]` annotation written
by the pipeline (inputs carry an ignored placeholder). -/
structure Lead where
  companyName : Str
  website : Str
  phone : Str
  email : Str
  industry : Str
  location : Str
  employeeCount : Nat
  description : Str
  notes : Str
  icpScore : ℤ
deriving DecidableEq, Repr

/-- The weight of the first entry of `prefs` whose key occurs as a
substring of `text` (the scorer's `for ... if pref in text: score += w;
break` loop), or `0` when none matches. -/
def firstMatchWeight (prefs : List (Str × ℤ)) (text : Str) : ℤ :=
  match prefs with
  | [] => 0
  | (p, w) :: rest => if containsSub p text then w else firstMatchWeight rest text

/-- Method `_categorize_company_size`. -/
def categorizeCompanySize (n : Nat) : Str :=
  if 1000 ≤ n then str "1000+"
  else if 501 ≤ n then str "501-1000"
  else if 251 ≤ n then str "251-500"
  else if 101 ≤ n then str "101-250"
  else if 51 ≤ n then str "51-100"
  else if 10 ≤ n then str "10-50"
  else str "1-10"

/-- Method `calculate_icp_score`: additive scoring from a base of 50, clamped
to 100 at the end. -/
def calculateIcpScore (icp : ICPCriteria) (lead : Lead) : ℤ :=
  let indScore := firstMatchWeight icp.preferredIndustries (lowerStr lead.industry)
  let locScore := firstMatchWeight icp.preferredLocations (lowerStr lead.location)
  let sizeScore := lookupD icp.preferredCompanySizes (categorizeCompanySize lead.employeeCount) 0
  let descr := lowerStr (lead.description ++ [' '] ++ lead.notes)
  let painCount := (icp.keyPainPoints.filter (fun p => containsSub p descr)).length
  let painScore : ℤ := min ((painCount : ℤ) * 3) 15
  let techCount := (icp.techIndicators.filter
    (fun i => containsSub i descr || containsSub i (lowerStr lead.website))).length
  let techScore : ℤ := min ((techCount : ℤ) * 2) 10
  let webScore : ℤ := if lead.website ≠ [] then 5 else 0
  let contactScore : ℤ := if lead.email ≠ [] ∨ lead.phone ≠ [] then 5 else 0
  min (50 + indScore + locScore + sizeScore + painScore + techScore + webScore + contactScore) 100

/-! ## Prioritization pipeline (`filter_and_prioritize_leads`) -/

/-- Method `get_remaining_daily_capacity`: `max(0, daily_limit - leads_added)`;
natural subtraction realizes the `max 0`. -/
def remainingDailyCapacity (dailyLimit : Nat) (today : Str) (st : LedgerState) : Nat :=
  dailyLimit - (getDailyStats st today).leadsAdded

/-- The stable descending insertion used to model CPython's
`list.sort(key=..., reverse=True)`: an element goes after every earlier
element whose key is ≥ its own, so equal keys keep input order. -/
def insertDescBy {α : Type} (key : α → ℤ) (x : α) : List α → List α
  | [] => [x]
  | y :: ys => if key x ≤ key y then y :: insertDescBy key x ys else x :: y :: ys

/-- Stable sort, descending by `key` (ties keep input order). -/
def sortDescBy {α : Type} (key : α → ℤ) (l : List α) : List α :=
  l.foldl (fun acc x => insertDescBy key x acc) []

/-- The mutable state threaded through the candidate loop: the three
in-memory dedup sets built from the existing records, the ledger, and
the accumulator of kept leads. -/
structure FapState where
  en : List Str
  ew : List Str
  ep : List Str
  ledger : LedgerState
  kept : List Lead
deriving DecidableEq, Repr

/-- The per-candidate body of the `filter_and_prioritize_leads` loop.
Mirrors the Python control flow: each `continue` keeps every mutation
already performed (in particular a website/phone added to a dedup set
stays added even when a later check skips the candidate). -/
def fapStep (icp : ICPCriteria) (s : FapState) (lead : Lead) : FapState :=
  let nname := normalizeCompanyName lead.companyName
  if nname ∈ s.en then s else
  if lead.website ≠ [] ∧ normalizeWebsite lead.website ∈ s.ew then s else
  let ew' := if lead.website ≠ [] then s.ew.insert (normalizeWebsite lead.website) else s.ew
  if lead.phone ≠ [] ∧ normalizePhone lead.phone ∈ s.ep then { s with ew := ew' } else
  let ep' := if lead.phone ≠ [] then s.ep.insert (normalizePhone lead.phone) else s.ep
  if isCompanySeen s.ledger lead.companyName then { s with ew := ew', ep := ep' } else
  if isCompanyFiltered s.ledger lead.companyName then { s with ew := ew', ep := ep' } else
  let score := calculateIcpScore icp lead
  if score < icp.minScoreThreshold then
    { s with
        ew := ew'
        ep := ep'
        ledger := markCompanyFiltered s.ledger lead.companyName }
  else
    { s with
        en := s.en.insert nname
        ew := ew'
        ep := ep'
        ledger := markCompanySeen s.ledger lead.companyName
        kept := s.kept ++ [{ lead with icpScore := score }] }

/-- The candidate loop: `for lead in discovered_leads` over `fapStep`. -/
def fapLoop (icp : ICPCriteria) (leads : List Lead) (s : FapState) : FapState :=
  leads.foldl (fapStep icp) s

/-- Method `filter_and_prioritize_leads(discovered, existing)`: build the dedup
sets from the existing records, run the candidate loop, sort the kept
leads by score descending, and truncate to today's remaining capacity
(read from the post-loop ledger, whose daily stats the loop never
touches).  Returns the admitted list and the mutated ledger. -/
def filterAndPrioritizeLeads (icp : ICPCriteria) (dailyLimit : Nat) (today : Str)
    (st : LedgerState) (discovered existing : List Lead) : List Lead × LedgerState :=
  let en := existing.map (fun l => normalizeCompanyName l.companyName)
  let ew := (existing.filter (fun l => l.website ≠ [])).map (fun l => normalizeWebsite l.website)
  let ep := (existing.filter (fun l => l.phone ≠ [])).map (fun l => normalizePhone l.phone)
  let r := fapLoop icp discovered ⟨en, ew, ep, st, []⟩
  let sorted := sortDescBy (fun l => l.icpScore) r.kept
  (sorted.take (remainingDailyCapacity dailyLimit today r.ledger), r.ledger)

/-! ## Query rotation (`QueryRotationManager`)

Rotation timestamps are integers in seconds, one day being 86400, so
`datetime.now() - timedelta(days=d)` is `now - d * 86400`. -/

/-- One element of the persisted `queries_used` history: the current
format records `{query, used_at}`; the legacy format is a bare string. -/
inductive UsedEntry where
  | timed (q : Str) (usedAt : Int)
  | legacy (q : Str)
deriving DecidableEq, Repr

structure RotState where
  queriesUsed : List UsedEntry
  industryRotation : List (Str × Nat)
  /-- Entry `state.get("industry_exhaustion", {})`, read by
  `_prioritize_unexhausted`; nothing in the manager writes it, so load
  state determines it. -/
  industryExhaustion : List (Str × ℤ)
  /-- Entry `state.get("location_exhaustion", {})`, likewise. -/
  locationExhaustion : List (Str × ℤ)
deriving DecidableEq, Repr

/-- The fresh state built by `QueryRotationManager._load_state` when the
backing file is absent. -/
def freshRot : RotState := ⟨[], [], [], []⟩

/-- Template `query_templates["location"]`, in program order. -/
def locationTemplates : List Str :=
  [str "Honolulu", str "Oahu", str "Maui", str "Kauai", str "Big Island",
   str "Hawaii Island", str "Waikiki", str "Lahaina", str "Kailua-Kona",
   str "Hilo", str "Kihei", str "Waipahu", str "Pearl City", str "Kaneohe",
   str "Kapolei", str "Aiea", str "Mililani", str "Kahului"]

/-- Template `query_templates["industry_keywords"]`, in program order. -/
def industryKeywords : List (Str × List Str) :=
  [(str "hospitality",
    [str "hotel", str "resort", str "vacation rental", str "bed and breakfast",
     str "inn", str "lodge", str "hostel", str "accommodation",
     str "beachfront hotel", str "boutique hotel", str "luxury resort",
     str "timeshare"]),
   (str "tourism",
    [str "tour operator", str "activity provider", str "tour company",
     str "excursion", str "sightseeing", str "adventure tours", str "snorkeling",
     str "luau", str "boat tours", str "helicopter tours", str "zipline"]),
   (str "restaurant",
    [str "restaurant", str "cafe", str "coffee shop", str "bar", str "food truck",
     str "catering", str "bakery", str "dining", str "fast food", str "fine dining",
     str "seafood restaurant", str "asian restaurant", str "breakfast spot"]),
   (str "retail",
    [str "shop", str "boutique", str "store", str "retail", str "gift shop",
     str "clothing store", str "jewelry store", str "souvenir shop",
     str "surf shop", str "art gallery", str "marketplace"]),
   (str "healthcare",
    [str "medical clinic", str "dental office", str "healthcare provider",
     str "physical therapy", str "urgent care", str "wellness center",
     str "chiropractic", str "medical practice", str "health clinic"]),
   (str "professional_services",
    [str "law firm", str "accounting firm", str "consulting", str "insurance agency",
     str "real estate", str "marketing agency", str "financial advisor",
     str "business services", str "property management", str "tax services"]),
   (str "wellness",
    [str "spa", str "massage", str "yoga studio", str "fitness center", str "gym",
     str "wellness spa", str "beauty salon", str "day spa", str "health club"]),
   (str "construction",
    [str "contractor", str "construction company", str "builder",
     str "home improvement", str "remodeling", str "roofing", str "plumbing",
     str "electrical contractor", str "landscaping"]),
   (str "education",
    [str "school", str "tutoring", str "training center", str "daycare",
     str "preschool", str "education center", str "learning center"])]

/-- Template `query_templates["modifiers"]`. -/
def modifierTemplates : List Str :=
  [str "business", str "company", str "service", str "provider", str "professional",
   str "local", str "island", str "hawaiian", str "best", str "top rated"]

/-- The keys of `industry_keywords`, in iteration order. -/
def industryKeys : List Str := industryKeywords.map Prod.fst

/-- Lookup `query_templates["industry_keywords"].get(ind, [ind])`. -/
def keywordsFor (ind : Str) : List Str := lookupD industryKeywords ind [ind]

/-- The per-entry test of `_was_query_used_recently`: a dict entry
matches when its query is equal ignoring case and its timestamp is
strictly newer than the cutoff; a legacy (bare string) entry matches on
the query alone and is assumed recent. -/
def entryMatchesRecent (q : Str) (cutoff : Int) : UsedEntry → Bool
  | .timed uq t => decide (lowerStr uq = lowerStr q) && decide (cutoff < t)
  | .legacy uq => decide (lowerStr uq = lowerStr q)

/-- Method `_was_query_used_recently(query, days)` at instant `now`, with the
cutoff `now - days * 86400`. -/
def wasQueryUsedRecently (used : List UsedEntry) (q : Str) (days : Int) (now : Int) : Bool :=
  used.any (entryMatchesRecent q (now - days * 86400))

/-- The stable ascending insertion modelling CPython's `sorted(key=...)`
(equal keys keep input order). -/
def insertAscBy {α : Type} (key : α → ℤ) (x : α) : List α → List α
  | [] => [x]
  | y :: ys => if key y ≤ key x then y :: insertAscBy key x ys else x :: y :: ys

/-- Stable sort, ascending by `key`. -/
def sortAscBy {α : Type} (key : α → ℤ) (l : List α) : List α :=
  l.foldl (fun acc x => insertAscBy key x acc) []

/-- Method `_prioritize_unexhausted(items, category)`: stable sort by the
category's recorded exhaustion of the lowercased item, defaulting 0. -/
def prioritizeUnexhausted (exh : List (Str × ℤ)) (items : List Str) : List Str :=
  sortAscBy (fun x => lookupD exh (lowerStr x) 0) items

/-- The inner `for loc in locations[:2]` loop of `get_next_queries`:
form `f"{loc} {keyword}"`, skip it when recently used, otherwise append
and stop once `max_queries` is reached. -/
def gnqInner (used : List UsedEntry) (now : Int) (kw : Str) :
    List Str → Nat → List Str → List Str
  | [], _, acc => acc
  | loc :: rest, maxQ, acc =>
    let q := loc ++ [' '] ++ kw
    if wasQueryUsedRecently used q 7 now then gnqInner used now kw rest maxQ acc
    else
      let acc' := acc ++ [q]
      if maxQ ≤ acc'.length then acc' else gnqInner used now kw rest maxQ acc'

/-- The outer `for ind in industries[:3]` loop: advance the industry's
keyword rotation cursor, run the inner loop over the first two
locations, and stop once `max_queries` is reached. -/
def gnqOuter (used : List UsedEntry) (now : Int) (locs : List Str) (maxQ : Nat) :
    List Str → List (Str × Nat) → List Str → List Str × List (Str × Nat)
  | [], rot, acc => (acc, rot)
  | ind :: rest, rot, acc =>
    let keywords := keywordsFor ind
    let idx := lookupD rot ind 0
    let kw := keywords.getD (idx % keywords.length) ind
    let rot' := updateA rot ind ((idx + 1) % keywords.length)
    let acc' := gnqInner used now kw (locs.take 2) maxQ acc
    if maxQ ≤ acc'.length then (acc', rot') else gnqOuter used now locs maxQ rest rot' acc'

/-- The fallback loop's `if not recent: queries.append(query)`. -/
def appendIfFresh (used : List UsedEntry) (now : Int) (q : Str) (acc : List Str) : List Str :=
  if wasQueryUsedRecently used q 7 now then acc else acc ++ [q]

/-- The fallback `for ind in industries` loop composing
`f"{modifier} {keyword} {loc}"` from random choices; `pick i` supplies
the iteration's three `random.choice` indices. -/
def gnqFallback (used : List UsedEntry) (now : Int) (locs : List Str) (maxQ : Nat)
    (pick : Nat → Nat × Nat × Nat) :
    List Str → Nat → List Str → List Str
  | [], _, acc => acc
  | ind :: rest, i, acc =>
    let keywords := keywordsFor ind
    let kw := keywords.getD ((pick i).1 % keywords.length) ind
    let loc := locs.getD ((pick i).2.1 % locs.length) []
    let m := modifierTemplates.getD ((pick i).2.2 % modifierTemplates.length) []
    let acc' := appendIfFresh used now (m ++ [' '] ++ kw ++ [' '] ++ loc) acc
    if maxQ ≤ acc'.length then acc' else gnqFallback used now locs maxQ pick rest (i + 1) acc'

/-- Slice `queries_used[-100:]`, applied after each `_mark_query_used`. -/
def keepLast {α : Type} (n : Nat) (l : List α) : List α := l.drop (l.length - n)

/-- Method `get_next_queries(industry, location, max_queries)` at instant
`now`, with `pick` resolving the fallback loop's random choices.
Returns the emitted queries together with the mutated rotation state
(each emitted query recorded with timestamp `now`, history trimmed to
the most recent 100 entries). -/
def getNextQueries (st : RotState) (industry location : Option Str) (maxQ : Nat)
    (now : Int) (pick : Nat → Nat × Nat × Nat) : List Str × RotState :=
  let industries :=
    match industry with
    | some i => [lowerStr i]
    | none => prioritizeUnexhausted st.industryExhaustion industryKeys
  let locations :=
    match location with
    | some l =>
      let ls := locationTemplates.filter (fun loc => containsSub (lowerStr l) (lowerStr loc))
      if ls = [] then [l] else ls
    | none => prioritizeUnexhausted st.locationExhaustion (locationTemplates.take 8)
  let r1 := gnqOuter st.queriesUsed now locations maxQ (industries.take 3)
    st.industryRotation []
  let queries :=
    if r1.1.length < maxQ then
      gnqFallback st.queriesUsed now locations maxQ pick industries 0 r1.1
    else r1.1
  let used' := keepLast 100
    (st.queriesUsed ++ queries.map (fun q => UsedEntry.timed q now))
  (queries, { st with queriesUsed := used', industryRotation := r1.2 })

/-! ## State loading (`_load_state` of both managers)

Both loaders wrap `json.load(open(state_file))` in
`try: ... except FileNotFoundError: return fresh`.  The backing store at
load time is therefore classified by its observable outcome: absent
(raises `FileNotFoundError`, caught), unparseable (raises
`json.JSONDecodeError`, *not* caught), or a stored value. -/

inductive StoreContent (α : Type) where
  | missing : StoreContent α
  | corrupt : StoreContent α
  | stored : α → StoreContent α
deriving DecidableEq, Repr

/-- Method `DiscoveryStateManager._load_state`: a missing file yields the fresh
empty ledger; a corrupt file propagates the parse error. -/
def loadDiscoveryState : StoreContent LedgerState → Except Unit LedgerState
  | .missing => .ok freshLedger
  | .corrupt => .error ()
  | .stored s => .ok s

/-- Method `QueryRotationManager._load_state`: same shape. -/
def loadRotationState : StoreContent RotState → Except Unit RotState
  | .missing => .ok freshRot
  | .corrupt => .error ()
  | .stored s => .ok s

/-! ## Concrete fixtures used by counterexamples and witnesses -/

/-- Scenario A's candidate: industry Tourism, location Honolulu,
80 employees, website present, no description/contact. -/
def scenarioALead : Lead where
  companyName := str "Aloha Tours"
  website := str "x.com"
  phone := []
  email := []
  industry := str "Tourism"
  location := str "Honolulu"
  employeeCount := 80
  description := []
  notes := []
  icpScore := 0

/-- A minimal candidate that scores 50 (base) + 5 (size bucket 1-10)
= 55, below the default threshold of 70. -/
def acmeLead : Lead where
  companyName := str "acme"
  website := []
  phone := []
  email := []
  industry := []
  location := []
  employeeCount := 0
  description := []
  notes := []
  icpScore := 0

/-- A ledger that has already filtered the key `acme`. -/
def acmeFilteredLedger : LedgerState := ⟨[], [str "acme"], []⟩

/-- A one-entry cache (payloads are strings here): the entry under
(service `s`, params `p`) expires at instant 5. -/
def cacheEx : APIResponseCache Str := ⟨[((str "s", str "p"), ⟨str "v", 0, 5⟩)], 24⟩

/-! ## General lemmas about the string primitives -/

theorem isPrefixC_append_self (l r : Str) : isPrefixC l (l ++ r) = true := by
  induction l with
  | nil => rfl
  | cons c cs ih => simp [isPrefixC, ih]

/-- Deleting the `k` remaining characters of a matched pattern runs
through exactly the next `k` characters. -/
theorem removeAllAux_skip (pat : Str) (l rest : Str) :
    removeAllAux pat l.length (l ++ rest) = removeAllAux pat 0 rest := by
  induction l with
  | nil => rfl
  | cons c cs ih => simpa [removeAllAux] using ih

/-- Python `replace` deletes a pattern occurrence sitting at the front. -/
theorem removeAll_append_left (pat rest : Str) (h : pat ≠ []) :
    removeAll pat (pat ++ rest) = removeAll pat rest := by
  cases pat with
  | nil => exact absurd rfl h
  | cons p pt =>
    show removeAllAux _ 0 _ = removeAllAux _ 0 _
    simp only [List.cons_append, removeAllAux]
    rw [if_pos ⟨by simp, by simpa using isPrefixC_append_self (p :: pt) rest⟩]
    have hl : (p :: pt).length - 1 = pt.length := by simp
    rw [hl]
    exact removeAllAux_skip (p :: pt) pt rest

/-- Python `replace` passes over a block that never exhibits the pattern's
first character. -/
theorem removeAll_append_head_ne (h : Char) (pt : Str) (pre rest : Str)
    (hpre : ∀ c ∈ pre, c ≠ h) :
    removeAll (h :: pt) (pre ++ rest) = pre ++ removeAll (h :: pt) rest := by
  induction pre with
  | nil => rfl
  | cons c cs ih =>
    have hc : c ≠ h := hpre c (by simp)
    show removeAllAux _ 0 _ = _
    simp only [List.cons_append, removeAllAux]
    rw [if_neg]
    · have ihh := ih (fun c hcc => hpre c (by simp [hcc]))
      show c :: removeAll (h :: pt) (cs ++ rest) = (c :: cs) ++ removeAll (h :: pt) rest
      rw [ihh]
      rfl
    · rintro ⟨-, hpref⟩
      simp only [isPrefixC, Bool.and_eq_true, beq_iff_eq] at hpref
      exact hc hpref.1.symm

theorem lstripP_cons_of_not (p : Char → Bool) (c : Char) (t : Str) (h : p c = false) :
    lstripP p (c :: t) = c :: t := by
  simp [lstripP, h]

/-- Python `rstrip` leaves an append alone when it leaves both halves alone. -/
theorem rstripP_append_eq (p : Char → Bool) (a b : Str)
    (ha : rstripP p a = a) (hb : rstripP p b = b) :
    rstripP p (a ++ b) = a ++ b := by
  induction a with
  | nil => simpa using hb
  | cons c cs ih =>
    simp only [rstripP] at ha
    by_cases hcs : rstripP p cs = [] ∧ p c = true
    · rw [if_pos hcs] at ha
      exact absurd ha.symm (List.cons_ne_nil c cs)
    · rw [if_neg hcs] at ha
      have hcs' : rstripP p cs = cs := by
        injection ha
      have ihh := ih hcs'
      have hneg : ¬(cs ++ b = [] ∧ p c = true) := by
        rintro ⟨hnil, hpc⟩
        rcases List.append_eq_nil.mp hnil with ⟨h1, h2⟩
        exact hcs ⟨by rw [h1]; rfl, hpc⟩
      simp only [List.cons_append, rstripP, List.append_eq, ihh]
      rw [if_neg hneg]

/-! ## Claim C3 — load-time failure semantics -/

/-- C3 (counterexample): the claim says a corrupt backing store is
recovered by initializing fresh state and that loading never fails; but
both `_load_state` implementations catch only `FileNotFoundError`, so an
unparseable store propagates the parse error and startup fails. -/
theorem C3_counterexample :
    loadDiscoveryState StoreContent.corrupt = Except.error () ∧
    loadRotationState StoreContent.corrupt = Except.error () :=
  ⟨rfl, rfl⟩

/-- C3 (amended): a *missing* backing store yields the fresh empty
ledger/rotation state without failing, and a successfully parsed store
is returned as-is; only a *corrupt* store makes loading fail. -/
theorem C3_amended :
    loadDiscoveryState StoreContent.missing = Except.ok freshLedger ∧
    loadRotationState StoreContent.missing = Except.ok freshRot ∧
    loadDiscoveryState StoreContent.corrupt = Except.error () ∧
    loadRotationState StoreContent.corrupt = Except.error () ∧
    (∀ s : LedgerState, loadDiscoveryState (StoreContent.stored s) = Except.ok s) ∧
    (∀ s : RotState, loadRotationState (StoreContent.stored s) = Except.ok s) :=
  ⟨rfl, rfl, rfl, rfl, fun _ => rfl, fun _ => rfl⟩

/-! ## Claim C9 — idempotence of the normalizers -/

/-- C9 (counterexample): the company-name and website normalizers are
not idempotent.  Deleting `" co"` from `"x in coc"` manufactures a fresh
`" inc"` occurrence (`"x inc"`), which a second pass deletes (`"x"`);
deleting `"www."` from `"a/www."` leaves a trailing slash (`"a/"`) that
only a second pass strips (`"a"`). -/
theorem C9_counterexample :
    normalizeCompanyName (normalizeCompanyName (str "x in coc")) ≠
      normalizeCompanyName (str "x in coc") ∧
    normalizeWebsite (normalizeWebsite (str "a/www.")) ≠ normalizeWebsite (str "a/www.") := by
  decide

/-- C9 (amended): of the three normalizers only the phone normalizer is
idempotent: its output is all digits and at most 10 of them, so a second
pass filters nothing and keeps everything. -/
theorem C9_amended (x : Str) :
    normalizePhone (normalizePhone x) = normalizePhone x := by
  have hall : ∀ c ∈ x.filter Char.isDigit, Char.isDigit c = true :=
    fun c hc => (List.mem_filter.mp hc).2
  by_cases h : 10 ≤ (x.filter Char.isDigit).length
  · have hinner : normalizePhone x =
        (x.filter Char.isDigit).drop ((x.filter Char.isDigit).length - 10) := by
      simp only [normalizePhone, if_pos h]
    rw [hinner]
    have hrall : ∀ c ∈ (x.filter Char.isDigit).drop ((x.filter Char.isDigit).length - 10),
        Char.isDigit c = true :=
      fun c hc => hall c (List.drop_subset _ _ hc)
    have hfr := List.filter_eq_self.mpr hrall
    have hlen : ((x.filter Char.isDigit).drop ((x.filter Char.isDigit).length - 10)).length
        = 10 := by
      rw [List.length_drop]
      omega
    simp only [normalizePhone, hfr, hlen]
    norm_num
  · have hinner : normalizePhone x = x.filter Char.isDigit := by
      simp only [normalizePhone, if_neg h]
    rw [hinner]
    simp only [normalizePhone, List.filter_eq_self.mpr hall, if_neg h]

/-! ## Claim C5 — website normalization -/

/-- C5 (counterexample): the claim says any path component is removed,
but `_normalize_website` only deletes scheme and `www.` substrings and
trailing slashes, so a `/path` suffix survives. -/
theorem C5_counterexample :
    normalizeWebsite (str "https://www.example.com/path") ≠ str "example.com" := by
  decide

/-- C5 (amended): the normalizer lowercases, strips trailing slashes and
deletes the `https://`, `http://` and `www.` substrings, but it does
*not* remove a path component.  Concretely, prefixing `https://www.` to
any string with no surrounding whitespace and no trailing slash does not
change its normalization, and a URL with a path keeps the path. -/
theorem C5_amended (s : Str)
    (hL : lstripP isWsChar (lowerStr s) = lowerStr s)
    (hR : rstripP isWsChar (lowerStr s) = lowerStr s)
    (hS : rstripP (fun c => c == '/') (lowerStr s) = lowerStr s) :
    normalizeWebsite (str "https://www." ++ s) = normalizeWebsite s ∧
    normalizeWebsite (str "https://www.example.com/path") = str "example.com/path" := by
  refine ⟨?_, by decide⟩
  have hP1 : List.map Char.toLower (str "https://www.") = str "https://www." := by decide
  have h0 : lowerStr (str "https://www." ++ s) = str "https://www." ++ lowerStr s := by
    simp only [lowerStr, List.map_append, hP1]
  have h1 : stripWs (str "https://www." ++ lowerStr s) = str "https://www." ++ lowerStr s := by
    unfold stripWs
    rw [rstripP_append_eq _ _ _ (by decide) hR]
    exact lstripP_cons_of_not _ 'h' _ (by decide)
  have h2 : rstripP (fun c => c == '/') (str "https://www." ++ lowerStr s) =
      str "https://www." ++ lowerStr s :=
    rstripP_append_eq _ _ _ (by decide) hS
  have h3 : removeAll (str "https://") (str "https://www." ++ lowerStr s) =
      str "www." ++ removeAll (str "https://") (lowerStr s) := by
    have e1 : str "https://www." ++ lowerStr s =
        str "https://" ++ (str "www." ++ lowerStr s) := by
      rw [← List.append_assoc]
      rfl
    rw [e1, removeAll_append_left _ _ (by decide)]
    exact removeAll_append_head_ne 'h' (str "ttps://") (str "www.") (lowerStr s) (by decide)
  have h4 : removeAll (str "http://") (str "www." ++ removeAll (str "https://") (lowerStr s)) =
      str "www." ++ removeAll (str "http://") (removeAll (str "https://") (lowerStr s)) :=
    removeAll_append_head_ne 'h' (str "ttp://") _ _ (by decide)
  have h5 : removeAll (str "www.") (str "www." ++
        removeAll (str "http://") (removeAll (str "https://") (lowerStr s))) =
      removeAll (str "www.") (removeAll (str "http://") (removeAll (str "https://")
        (lowerStr s))) :=
    removeAll_append_left _ _ (by decide)
  simp only [normalizeWebsite]
  rw [h0, h1, h2, h3, h4, h5]
  simp only [stripWs, hR, hL, hS]

/-- C5 (witness): instantiating the amended theorem at the bare domain
`example.com`. -/
theorem C5_witness :
    lstripP isWsChar (lowerStr (str "example.com")) = lowerStr (str "example.com") ∧
    normalizeWebsite (str "https://www." ++ str "example.com") =
      normalizeWebsite (str "example.com") :=
  ⟨by decide, (C5_amended (str "example.com") (by decide) (by decide) (by decide)).1⟩

/-! ## Claims C8 and C10 — response cache -/

/-- Deleting a key from the store makes its lookup miss. -/
theorem entriesLookup_filter_ne {α : Type} (l : List (CacheKey × CacheEntry α)) (k : CacheKey) :
    entriesLookup (l.filter fun e => e.1 ≠ k) k = none := by
  induction l with
  | nil => rfl
  | cons e rest ih =>
    obtain ⟨k', v⟩ := e
    by_cases he : k' = k
    · simpa [List.filter_cons, he] using ih
    · simpa [List.filter_cons, he, entriesLookup] using ih

/-- C8 (counterexample): the claim says an entry is absent (and evicted)
once `now ≥ expiry`, but `get` uses the strict test `now > expires_at`:
at exactly the expiry instant (the fixture's entry expires at 5) the
payload is still returned and the entry is not evicted. -/
theorem C8_counterexample :
    (cacheGet cacheEx (str "s") (str "p") 5).1 = some (str "v") ∧
    (cacheGet cacheEx (str "s") (str "p") 5).2 = cacheEx := by
  decide

/-- C8 (amended): once the current time is *strictly* greater than an
entry's expiry, `get` returns absent and evicts the entry, regardless of
it still being physically stored. -/
theorem C8_amended {α : Type} (c : APIResponseCache α) (service params : Str)
    (now : Int) (e : CacheEntry α)
    (he : cacheLookup c (service, params) = some e) (h : now > e.expiresAt) :
    (cacheGet c service params now).1 = none ∧
    cacheLookup (cacheGet c service params now).2 (service, params) = none := by
  have hg : cacheGet c service params now = (none, cacheErase c (service, params)) := by
    simp only [cacheGet, he]
    rw [if_pos h]
  rw [hg]
  exact ⟨rfl, entriesLookup_filter_ne _ _⟩

/-- C8 (witness): the fixture entry expires at 5; reading at 6. -/
theorem C8_witness :
    cacheLookup cacheEx (str "s", str "p") = some ⟨str "v", 0, 5⟩ ∧
    (cacheGet cacheEx (str "s") (str "p") 6).1 = none ∧
    cacheLookup (cacheGet cacheEx (str "s") (str "p") 6).2 (str "s", str "p") = none := by
  have h := C8_amended cacheEx (str "s") (str "p") 6 ⟨str "v", 0, 5⟩ (by decide) (by decide)
  exact ⟨by decide, h.1, h.2⟩

/-- C10 (theorem): `set` evaluates `timedelta(hours=ttl_hours) if
ttl_hours else default`, and Python's `0` is falsy, so `ttl_hours=0`
stores the entry with the cache's default TTL (24 hours at
construction), not an immediately-expired one; any `get` before that
default expiry returns the stored payload. -/
theorem C10_default_ttl {α : Type} (c : APIResponseCache α) (service params : Str) (d : α)
    (now t : Int) (h : t < now + c.defaultTtl) :
    cacheLookup (cacheSet c service params d (some 0) now) (service, params) =
      some ⟨d, now, now + c.defaultTtl⟩ ∧
    (cacheGet (cacheSet c service params d (some 0) now) service params t).1 = some d := by
  have hlook : cacheLookup (cacheSet c service params d (some 0) now) (service, params) =
      some ⟨d, now, now + c.defaultTtl⟩ := by
    simp [cacheSet, cacheLookup, entriesLookup]
  refine ⟨hlook, ?_⟩
  simp only [cacheGet, hlook]
  rw [if_neg (show ¬ t > now + c.defaultTtl by omega)]

/-- C10 (witness): an empty cache with the constructor-default TTL of
24; `set` with `ttl_hours=0` at instant 0, `get` at instant 23. -/
theorem C10_witness :
    (23 : Int) < 0 + (⟨[], 24⟩ : APIResponseCache Str).defaultTtl ∧
    (cacheGet (cacheSet (⟨[], 24⟩ : APIResponseCache Str) (str "s") (str "p") (str "v")
        (some 0) 0) (str "s") (str "p") 23).1 = some (str "v") :=
  ⟨by decide, (C10_default_ttl ⟨[], 24⟩ (str "s") (str "p") (str "v") 0 23 (by decide)).2⟩

/-! ## Claim C6 — fit score bounds -/

theorem firstMatchWeight_nonneg (prefs : List (Str × ℤ)) (text : Str)
    (h : ∀ pw ∈ prefs, 0 ≤ pw.2) : 0 ≤ firstMatchWeight prefs text := by
  induction prefs with
  | nil => simp [firstMatchWeight]
  | cons pw rest ih =>
    obtain ⟨p, w⟩ := pw
    by_cases hc : containsSub p text
    · simpa [firstMatchWeight, hc] using h (p, w) (by simp)
    · simpa [firstMatchWeight, hc] using ih (fun x hx => h x (by simp [hx]))

theorem lookupD_int_nonneg (l : List (Str × ℤ)) (k : Str)
    (h : ∀ pw ∈ l, 0 ≤ pw.2) : 0 ≤ lookupD l k 0 := by
  induction l with
  | nil => simp [lookupD]
  | cons pw rest ih =>
    obtain ⟨k', v⟩ := pw
    by_cases hk : k' = k
    · simpa [lookupD, hk] using h (k', v) (by simp)
    · simpa [lookupD, hk] using ih (fun x hx => h x (by simp [hx]))

/-- C6 (theorem): for any profile whose industry, location and size
weights are non-negative the fit score lies in [0,100], and Scenario A's
candidate (Tourism 25 + Honolulu 15 + bucket 51-100 25 + website 5 on
base 50 = 120) is clamped to exactly 100 under the default profile. -/
theorem C6_score_bounds (icp : ICPCriteria) (lead : Lead)
    (h1 : ∀ pw ∈ icp.preferredIndustries, 0 ≤ pw.2)
    (h2 : ∀ pw ∈ icp.preferredLocations, 0 ≤ pw.2)
    (h3 : ∀ pw ∈ icp.preferredCompanySizes, 0 ≤ pw.2) :
    (0 ≤ calculateIcpScore icp lead ∧ calculateIcpScore icp lead ≤ 100) ∧
    calculateIcpScore defaultICP scenarioALead = 100 := by
  refine ⟨⟨?_, min_le_right _ _⟩, by decide⟩
  simp only [calculateIcpScore]
  refine le_min ?_ (by norm_num)
  refine add_nonneg (add_nonneg (add_nonneg (add_nonneg (add_nonneg (add_nonneg
    (add_nonneg (by norm_num) ?_) ?_) ?_) ?_) ?_) ?_) ?_
  · exact firstMatchWeight_nonneg _ _ h1
  · exact firstMatchWeight_nonneg _ _ h2
  · exact lookupD_int_nonneg _ _ h3
  · exact le_min (by positivity) (by norm_num)
  · exact le_min (by positivity) (by norm_num)
  · split <;> norm_num
  · split <;> norm_num

/-- C6 (witness): the default profile's weights are non-negative and the
bounds hold at a concrete candidate. -/
theorem C6_witness :
    (∀ pw ∈ defaultICP.preferredIndustries, (0:ℤ) ≤ pw.2) ∧
    (0 ≤ calculateIcpScore defaultICP acmeLead ∧
      calculateIcpScore defaultICP acmeLead ≤ 100) :=
  ⟨by decide, (C6_score_bounds defaultICP acmeLead (by decide) (by decide) (by decide)).1⟩

/-! ## Pipeline lemmas shared by claims C1, C2 and C4 -/

/-- A single loop step never touches the daily counters. -/
theorem fapStep_dailyStats (icp : ICPCriteria) (s : FapState) (lead : Lead) :
    (fapStep icp s lead).ledger.dailyStats = s.ledger.dailyStats := by
  simp only [fapStep]
  split_ifs <;> simp [markCompanySeen, markCompanyFiltered]

/-- The candidate loop never touches the daily counters. -/
theorem fapLoop_dailyStats (icp : ICPCriteria) (leads : List Lead) :
    ∀ s : FapState, (fapLoop icp leads s).ledger.dailyStats = s.ledger.dailyStats := by
  induction leads with
  | nil => intro s; rfl
  | cons lead rest ih =>
    intro s
    simp only [fapLoop, List.foldl_cons] at ih ⊢
    rw [ih, fapStep_dailyStats]

theorem mem_insertDescBy {α : Type} (key : α → ℤ) (x a : α) (l : List α) :
    a ∈ insertDescBy key x l ↔ a = x ∨ a ∈ l := by
  induction l with
  | nil => simp [insertDescBy]
  | cons y ys ih =>
    simp only [insertDescBy]
    split_ifs
    · rw [List.mem_cons, ih, List.mem_cons]
      tauto
    · simp only [List.mem_cons]

theorem length_insertDescBy {α : Type} (key : α → ℤ) (x : α) (l : List α) :
    (insertDescBy key x l).length = l.length + 1 := by
  induction l with
  | nil => rfl
  | cons y ys ih =>
    simp only [insertDescBy]
    split_ifs <;> simp [ih]

theorem mem_sortDescBy {α : Type} (key : α → ℤ) (l : List α) (a : α) :
    a ∈ sortDescBy key l ↔ a ∈ l := by
  have gen : ∀ (l acc : List α),
      (a ∈ l.foldl (fun acc x => insertDescBy key x acc) acc ↔ a ∈ acc ∨ a ∈ l) := by
    intro l
    induction l with
    | nil => intro acc; simp
    | cons x xs ih =>
      intro acc
      rw [List.foldl_cons, ih, mem_insertDescBy, List.mem_cons]
      tauto
  rw [sortDescBy, gen]
  simp

theorem length_sortDescBy {α : Type} (key : α → ℤ) (l : List α) :
    (sortDescBy key l).length = l.length := by
  have gen : ∀ (l acc : List α),
      (l.foldl (fun acc x => insertDescBy key x acc) acc).length = acc.length + l.length := by
    intro l
    induction l with
    | nil => intro acc; simp
    | cons x xs ih =>
      intro acc
      rw [List.foldl_cons, ih, length_insertDescBy]
      simp only [List.length_cons]
      omega
  rw [sortDescBy, gen]
  simp

/-- The pipeline leaves the daily counters unchanged. -/
theorem filterAndPrioritizeLeads_dailyStats (icp : ICPCriteria) (dailyLimit : Nat)
    (today : Str) (st : LedgerState) (discovered existing : List Lead) :
    (filterAndPrioritizeLeads icp dailyLimit today st discovered existing).2.dailyStats
      = st.dailyStats := by
  simp only [filterAndPrioritizeLeads]
  exact fapLoop_dailyStats icp discovered _

/-- The admitted list is truncated to the remaining capacity. -/
theorem filterAndPrioritizeLeads_length (icp : ICPCriteria) (dailyLimit : Nat)
    (today : Str) (st : LedgerState) (discovered existing : List Lead) :
    (filterAndPrioritizeLeads icp dailyLimit today st discovered existing).1.length ≤
      dailyLimit - (getDailyStats st today).leadsAdded := by
  simp only [filterAndPrioritizeLeads]
  rw [List.length_take]
  have hds := fapLoop_dailyStats icp discovered
    ⟨existing.map fun l => normalizeCompanyName l.companyName,
     (existing.filter fun l => l.website ≠ []).map fun l => normalizeWebsite l.website,
     (existing.filter fun l => l.phone ≠ []).map fun l => normalizePhone l.phone, st, []⟩
  simp only [remainingDailyCapacity, getDailyStats, hds]
  exact min_le_left _ _

/-! ## Claim C1 — behaviour at exhausted quota -/

/-- C1 (counterexample): with `daily_limit = 0` the remaining capacity
is 0, yet running the pipeline on one below-threshold candidate still
scores it and still calls `mark_filtered`: the ledger's filtered set
gains the key `acme`.  There is no short-circuit before the candidate
loop; only the final truncation produces the empty result. -/
theorem C1_counterexample :
    remainingDailyCapacity 0 (str "2026-10-12") freshLedger = 0 ∧
    (filterAndPrioritizeLeads defaultICP 0 (str "2026-10-12") freshLedger [acmeLead] []).1
      = [] ∧
    str "acme" ∈ (filterAndPrioritizeLeads defaultICP 0 (str "2026-10-12") freshLedger
      [acmeLead] []).2.filtered ∧
    str "acme" ∉ freshLedger.filtered := by
  decide

/-- C1 (amended): when the daily quota is already exhausted the pipeline
does return an empty list — but only because the final truncation takes
0 elements; candidates are still scored and still marked
filtered/seen on the way. -/
theorem C1_amended (icp : ICPCriteria) (dailyLimit : Nat) (today : Str) (st : LedgerState)
    (discovered existing : List Lead)
    (h : dailyLimit ≤ (getDailyStats st today).leadsAdded) :
    (filterAndPrioritizeLeads icp dailyLimit today st discovered existing).1 = [] := by
  have hlen := filterAndPrioritizeLeads_length icp dailyLimit today st discovered existing
  have : (filterAndPrioritizeLeads icp dailyLimit today st discovered existing).1.length
      = 0 := by omega
  exact List.length_eq_zero.mp this

/-- C1 (witness): the amended theorem at `daily_limit = 0` on a fresh
ledger. -/
theorem C1_witness :
    0 ≤ (getDailyStats freshLedger (str "2026-10-12")).leadsAdded ∧
    (filterAndPrioritizeLeads defaultICP 0 (str "2026-10-12") freshLedger [acmeLead] []).1
      = [] :=
  ⟨by decide,
   C1_amended defaultICP 0 (str "2026-10-12") freshLedger [acmeLead] [] (by decide)⟩

/-! ## Claim C2 — filtered keys are never re-admitted -/

/-- Step invariant for C2: while a key sits in the ledger's filtered
set, one loop step (a) keeps it there, (b) only appends candidates with
a different ledger key, and (c) never inserts it into the seen set. -/
theorem fapStep_filtered_frame (icp : ICPCriteria) (key : Str) (s : FapState) (lead : Lead)
    (hk : key ∈ s.ledger.filtered) :
    key ∈ (fapStep icp s lead).ledger.filtered ∧
    (∀ l ∈ (fapStep icp s lead).kept, l ∈ s.kept ∨ ledgerKey l.companyName ≠ key) ∧
    (key ∉ s.ledger.seen → key ∉ (fapStep icp s lead).ledger.seen) := by
  by_cases h1 : normalizeCompanyName lead.companyName ∈ s.en
  · simp only [fapStep, if_pos h1]
    exact ⟨hk, fun l hl => Or.inl hl, fun h => h⟩
  by_cases h2 : lead.website ≠ [] ∧ normalizeWebsite lead.website ∈ s.ew
  · simp only [fapStep, if_neg h1, if_pos h2]
    exact ⟨hk, fun l hl => Or.inl hl, fun h => h⟩
  by_cases h3 : lead.phone ≠ [] ∧ normalizePhone lead.phone ∈ s.ep
  · simp only [fapStep, if_neg h1, if_neg h2, if_pos h3]
    exact ⟨hk, fun l hl => Or.inl hl, fun h => h⟩
  by_cases h4 : isCompanySeen s.ledger lead.companyName
  · simp only [fapStep, if_neg h1, if_neg h2, if_neg h3, if_pos h4]
    exact ⟨hk, fun l hl => Or.inl hl, fun h => h⟩
  by_cases h5 : isCompanyFiltered s.ledger lead.companyName
  · simp only [fapStep, if_neg h1, if_neg h2, if_neg h3, if_neg h4, if_pos h5]
    exact ⟨hk, fun l hl => Or.inl hl, fun h => h⟩
  by_cases h6 : calculateIcpScore icp lead < icp.minScoreThreshold
  · simp only [fapStep, if_neg h1, if_neg h2, if_neg h3, if_neg h4, if_neg h5, if_pos h6]
    exact ⟨List.mem_insert_iff.mpr (Or.inr hk), fun l hl => Or.inl hl, fun h => h⟩
  · simp only [fapStep, if_neg h1, if_neg h2, if_neg h3, if_neg h4, if_neg h5, if_neg h6]
    have hne : ledgerKey lead.companyName ≠ key := by
      intro he
      apply h5
      show ledgerKey lead.companyName ∈ s.ledger.filtered
      rw [he]
      exact hk
    refine ⟨hk, ?_, ?_⟩
    · intro l hl
      rcases List.mem_append.mp hl with ha | hb
      · exact Or.inl ha
      · refine Or.inr ?_
        rw [List.mem_singleton.mp hb]
        exact hne
    · intro hs hmem
      rcases List.mem_insert_iff.mp hmem with he | he
      · exact hne he.symm
      · exact hs he

/-- Loop invariant for C2, lifted over the whole candidate loop. -/
theorem fapLoop_filtered_frame (icp : ICPCriteria) (key : Str) (leads : List Lead) :
    ∀ s : FapState, key ∈ s.ledger.filtered →
      key ∈ (fapLoop icp leads s).ledger.filtered ∧
      (∀ l ∈ (fapLoop icp leads s).kept, l ∈ s.kept ∨ ledgerKey l.companyName ≠ key) ∧
      (key ∉ s.ledger.seen → key ∉ (fapLoop icp leads s).ledger.seen) := by
  induction leads with
  | nil =>
    intro s hk
    exact ⟨hk, fun l hl => Or.inl hl, fun h => h⟩
  | cons lead rest ih =>
    intro s hk
    have hstep := fapStep_filtered_frame icp key s lead hk
    have hrest := ih (fapStep icp s lead) hstep.1
    simp only [fapLoop, List.foldl_cons] at hrest ⊢
    refine ⟨hrest.1, ?_, fun hs => hrest.2.2 (hstep.2.2 hs)⟩
    intro l hl
    rcases hrest.2.1 l hl with hmem | hne
    · exact hstep.2.1 l hmem
    · exact Or.inr hne

/-- C2 (theorem): if a key is in the ledger's filtered set, a later
pipeline run never emits a candidate with that ledger key and never
marks that key seen (regardless of the candidate's score). -/
theorem C2_filtered_permanent (icp : ICPCriteria) (dailyLimit : Nat) (today : Str)
    (st : LedgerState) (discovered existing : List Lead) (key : Str)
    (hk : key ∈ st.filtered) :
    (∀ l ∈ (filterAndPrioritizeLeads icp dailyLimit today st discovered existing).1,
      ledgerKey l.companyName ≠ key) ∧
    (key ∉ st.seen →
      key ∉ (filterAndPrioritizeLeads icp dailyLimit today st discovered existing).2.seen)
    := by
  constructor
  · intro l hl
    simp only [filterAndPrioritizeLeads] at hl
    have hl1 := List.take_subset _ _ hl
    have hl2 := (mem_sortDescBy _ _ _).mp hl1
    rcases (fapLoop_filtered_frame icp key discovered ⟨_, _, _, st, []⟩ hk).2.1 l hl2
      with h' | h'
    · exact absurd h' (List.not_mem_nil l)
    · exact h'
  · intro hseen
    simp only [filterAndPrioritizeLeads]
    exact (fapLoop_filtered_frame icp key discovered ⟨_, _, _, st, []⟩ hk).2.2 hseen

/-- A re-submission of the filtered key `acme` with a qualifying score
(the Scenario A profile fields under the name `Acme`). -/
def acmeHighLead : Lead := { scenarioALead with companyName := str "Acme" }

/-- C2 (witness): under a ledger that filtered `acme`, re-submitting the
same key with score 100 leaves the key out of the seen set. -/
theorem C2_witness :
    str "acme" ∈ acmeFilteredLedger.filtered ∧
    str "acme" ∉ (filterAndPrioritizeLeads defaultICP 50 (str "2026-10-12")
      acmeFilteredLedger [acmeHighLead] []).2.seen := by
  have h := C2_filtered_permanent defaultICP 50 (str "2026-10-12") acmeFilteredLedger
    [acmeHighLead] [] (str "acme") (by decide)
  exact ⟨by decide, h.2 (by decide)⟩

/-! ## Claim C4 — the daily quota is never exceeded -/

/-- One pipeline run followed by the caller's
`increment_daily_leads(len(returned))`, per the orchestration contract. -/
def runAndRecord (icp : ICPCriteria) (dailyLimit : Nat) (today : Str)
    (st : LedgerState) (batch : List Lead × List Lead) : LedgerState :=
  let r := filterAndPrioritizeLeads icp dailyLimit today st batch.1 batch.2
  incrementDailyLeads r.2 today r.1.length

/-- A day's sequence of runs. -/
def runDay (icp : ICPCriteria) (dailyLimit : Nat) (today : Str)
    (batches : List (List Lead × List Lead)) (st : LedgerState) : LedgerState :=
  batches.foldl (runAndRecord icp dailyLimit today) st

theorem lookupD_updateA {β : Type} (l : List (Str × β)) (k : Str) (v d : β) :
    lookupD (updateA l k v) k d = v := by
  induction l with
  | nil => simp [updateA, lookupD]
  | cons e rest ih =>
    obtain ⟨k', v'⟩ := e
    by_cases hk : k' = k
    · simp [updateA, hk, lookupD]
    · simp [updateA, hk, lookupD, ih]

/-- A single run-plus-increment preserves `admitted ≤ limit`. -/
theorem runAndRecord_le (icp : ICPCriteria) (dailyLimit : Nat) (today : Str)
    (st : LedgerState) (batch : List Lead × List Lead)
    (h : (getDailyStats st today).leadsAdded ≤ dailyLimit) :
    (getDailyStats (runAndRecord icp dailyLimit today st batch) today).leadsAdded
      ≤ dailyLimit := by
  have hlen := filterAndPrioritizeLeads_length icp dailyLimit today st batch.1 batch.2
  have hds := filterAndPrioritizeLeads_dailyStats icp dailyLimit today st batch.1 batch.2
  simp only [runAndRecord, incrementDailyLeads, getDailyStats, hds, lookupD_updateA]
  simp only [getDailyStats] at h hlen
  omega

/-- C4 (theorem): starting a calendar day at 0 admitted, any sequence of
pipeline runs — each followed by `increment_daily_leads` with the length
of its returned list — keeps the day's admitted count at most the
configured daily limit. -/
theorem C4_daily_limit (icp : ICPCriteria) (dailyLimit : Nat) (today : Str)
    (batches : List (List Lead × List Lead)) (st : LedgerState)
    (h0 : (getDailyStats st today).leadsAdded = 0) :
    (getDailyStats (runDay icp dailyLimit today batches st) today).leadsAdded
      ≤ dailyLimit := by
  have gen : ∀ (batches : List (List Lead × List Lead)) (st : LedgerState),
      (getDailyStats st today).leadsAdded ≤ dailyLimit →
      (getDailyStats (runDay icp dailyLimit today batches st) today).leadsAdded
        ≤ dailyLimit := by
    intro batches
    induction batches with
    | nil => intro st h; exact h
    | cons b bs ih =>
      intro st h
      simp only [runDay, List.foldl_cons]
      exact ih _ (runAndRecord_le icp dailyLimit today st b h)
  exact gen batches st (by omega)

/-- C4 (witness): limit 1, two runs each submitting the qualifying
Scenario A candidate; the day ends with at most 1 admitted. -/
theorem C4_witness :
    (getDailyStats freshLedger (str "2026-10-12")).leadsAdded = 0 ∧
    (getDailyStats (runDay defaultICP 1 (str "2026-10-12")
      [([scenarioALead], []), ([scenarioALead], [])] freshLedger)
      (str "2026-10-12")).leadsAdded ≤ 1 :=
  ⟨by decide,
   C4_daily_limit defaultICP 1 (str "2026-10-12")
     [([scenarioALead], []), ([scenarioALead], [])] freshLedger (by decide)⟩

/-! ## Claim C7 — rotation never repeats a query used in the last 7 days -/

/-- Membership in the fallback loop's guarded append. -/
theorem mem_appendIfFresh (used : List UsedEntry) (now : Int) (q0 q : Str) (acc : List Str)
    (h : q ∈ appendIfFresh used now q0 acc) :
    q ∈ acc ∨ wasQueryUsedRecently used q 7 now = false := by
  simp only [appendIfFresh] at h
  split at h
  · exact Or.inl h
  next hrec =>
    rcases List.mem_append.mp h with ha | hb
    · exact Or.inl ha
    · rw [List.mem_singleton.mp hb]
      exact Or.inr (Bool.eq_false_iff.mpr hrec)

/-- Every query the inner location loop adds passed the 7-day check. -/
theorem gnqInner_not_recent (used : List UsedEntry) (now : Int) (kw : Str) (locs : List Str) :
    ∀ (maxQ : Nat) (acc : List Str) (q : Str), q ∈ gnqInner used now kw locs maxQ acc →
      q ∈ acc ∨ wasQueryUsedRecently used q 7 now = false := by
  induction locs with
  | nil => intro maxQ acc q hq; exact Or.inl hq
  | cons loc rest ih =>
    intro maxQ acc q hq
    simp only [gnqInner] at hq
    split at hq
    · exact ih maxQ acc q hq
    next hrec =>
      rw [Bool.not_eq_true] at hrec
      split at hq
      · rcases List.mem_append.mp hq with ha | hb
        · exact Or.inl ha
        · rw [List.mem_singleton.mp hb]
          exact Or.inr hrec
      · rcases ih maxQ _ q hq with hacc | hfalse
        · rcases List.mem_append.mp hacc with ha | hb
          · exact Or.inl ha
          · rw [List.mem_singleton.mp hb]
            exact Or.inr hrec
        · exact Or.inr hfalse

/-- Every query the outer industry loop adds passed the 7-day check. -/
theorem gnqOuter_not_recent (used : List UsedEntry) (now : Int) (locs : List Str)
    (maxQ : Nat) (inds : List Str) :
    ∀ (rot : List (Str × Nat)) (acc : List Str) (q : Str),
      q ∈ (gnqOuter used now locs maxQ inds rot acc).1 →
      q ∈ acc ∨ wasQueryUsedRecently used q 7 now = false := by
  induction inds with
  | nil => intro rot acc q hq; exact Or.inl hq
  | cons ind rest ih =>
    intro rot acc q hq
    simp only [gnqOuter] at hq
    split at hq
    · exact gnqInner_not_recent used now _ (locs.take 2) maxQ acc q hq
    · rcases ih _ _ q hq with hacc | hfalse
      · exact gnqInner_not_recent used now _ (locs.take 2) maxQ acc q hacc
      · exact Or.inr hfalse

/-- Every query the fallback loop adds passed the 7-day check. -/
theorem gnqFallback_not_recent (used : List UsedEntry) (now : Int) (locs : List Str)
    (maxQ : Nat) (pick : Nat → Nat × Nat × Nat) (inds : List Str) :
    ∀ (i : Nat) (acc : List Str) (q : Str), q ∈ gnqFallback used now locs maxQ pick inds i acc →
      q ∈ acc ∨ wasQueryUsedRecently used q 7 now = false := by
  induction inds with
  | nil => intro i acc q hq; exact Or.inl hq
  | cons ind rest ih =>
    intro i acc q hq
    simp only [gnqFallback] at hq
    split at hq
    · exact mem_appendIfFresh used now _ q acc hq
    · rcases ih (i + 1) _ q hq with hacc | hfalse
      · exact mem_appendIfFresh used now _ q acc hacc
      · exact Or.inr hfalse

/-- C7 (theorem): no query emitted by `get_next_queries` equals — case
insensitively — a query recorded in the rotation history within the
previous 7 days: the recency check fails for every emitted query, and
in particular every timestamped history entry newer than the 7-day
cutoff carries a different (case-folded) query text. -/
theorem C7_no_recent_repeat (st : RotState) (industry location : Option Str) (maxQ : Nat)
    (now : Int) (pick : Nat → Nat × Nat × Nat) (q : Str)
    (hq : q ∈ (getNextQueries st industry location maxQ now pick).1) :
    wasQueryUsedRecently st.queriesUsed q 7 now = false ∧
    (∀ uq t, UsedEntry.timed uq t ∈ st.queriesUsed → now - 7 * 86400 < t →
      lowerStr uq ≠ lowerStr q) := by
  have hfalse : wasQueryUsedRecently st.queriesUsed q 7 now = false := by
    simp only [getNextQueries] at hq
    split at hq
    · rcases gnqFallback_not_recent st.queriesUsed now _ maxQ pick _ 0 _ q hq
        with hacc | hf
      · rcases gnqOuter_not_recent st.queriesUsed now _ maxQ _ _ [] q hacc with hnil | hf
        · exact absurd hnil (List.not_mem_nil q)
        · exact hf
      · exact hf
    · rcases gnqOuter_not_recent st.queriesUsed now _ maxQ _ _ [] q hq with hnil | hf
      · exact absurd hnil (List.not_mem_nil q)
      · exact hf
  refine ⟨hfalse, ?_⟩
  intro uq t hmem hlt heq
  have h2 := List.any_eq_false.mp hfalse (UsedEntry.timed uq t) hmem
  simp only [entryMatchesRecent, Bool.and_eq_true, decide_eq_true_eq, not_and] at h2
  exact absurd hlt (h2 heq)

/-- C7 (witness): a fresh rotation state asked for 5 queries emits
`Honolulu hotel`, and that query passes the 7-day check against the
(empty) history. -/
theorem C7_witness :
    str "Honolulu hotel" ∈ (getNextQueries freshRot none none 5 0 (fun _ => (0, 0, 0))).1 ∧
    wasQueryUsedRecently freshRot.queriesUsed (str "Honolulu hotel") 7 0 = false :=
  ⟨by decide,
   (C7_no_recent_repeat freshRot none none 5 0 (fun _ => (0, 0, 0))
     (str "Honolulu hotel") (by decide)).1⟩

end LeadEngine
